import Mathlib

/-!
Verification development for the mcp-rest-api-server repository.

The definitions below are shallow embeddings of the TypeScript source:

* `JsValue`, `stringify`, `parseJson` model the JSON-serializable JavaScript
  value fragment handled by the Redis helpers (JSON.stringify / JSON.parse are
  external builtins of the JavaScript runtime; they are modelled concretely on
  the fragment null / boolean / integer / string, with quote and backslash
  escaping).
* `KV`, `kvSet`, `kvGet`, `kvDel`, `kvExpire` model the Redis string keyspace
  as an association list from key to (serialized value, absolute expiry).
* `cacheGet` / `cacheSet` / `cacheDel` / `cacheExists` embed `RedisCache`,
  `smCreate` / `smGet` / `smUpdate` / `smDelete` / `smExtend` embed
  `RedisSessionManager`, and `checkLimit` embeds
  `RedisRateLimiter.checkLimit` (src/utils/redis.ts).
* `clientStep` embeds the event handlers installed by `createRedisClient`.
* `Srv`, `start`, `stop`, `cleanup`, `routeRequest`, `onSessionInitialized`,
  `handleMcpSse`, `handleMcpSessionTermination` embed the lifecycle and
  session-routing logic of `RestApiMcpServer`.

Stateful TypeScript code is embedded by explicit state passing; a thrown and
caught exception in an individual store operation is embedded by a Boolean
`opOk` flag (`false` means the awaited store call threw), and `isOpen` embeds
`client.isOpen`.
-/

namespace RestApiMcp
/-- JavaScript values in the JSON-serializable fragment stored by the cache and
session manager. -/
inductive JsValue where
  | null : JsValue
  | bool : Bool → JsValue
  | num : Int → JsValue
  | str : String → JsValue
deriving DecidableEq, Repr

/-- Decimal digit character, `digitChar d` is the character for digit `d`. -/
def digitChar (d : Nat) : Char := Char.ofNat (48 + d)

/-- Decimal rendering of a natural number, most significant digit first
(the JavaScript `String(n)` rendering for integral `n`). -/
def natDigits (n : Nat) : List Char :=
  if n < 10 then [digitChar n]
  else natDigits (n / 10) ++ [digitChar (n % 10)]
decreasing_by exact Nat.div_lt_self (by omega) (by omega)

/-- Numeric value of a decimal digit character, `none` for non-digits. -/
def digitVal (c : Char) : Option Nat :=
  if 48 ≤ c.toNat ∧ c.toNat ≤ 57 then some (c.toNat - 48) else none

/-- Left fold of decimal digits into a number; fails on any non-digit. -/
def parseDigits : List Char → Nat → Option Nat
  | [], acc => some acc
  | c :: cs, acc =>
    match digitVal c with
    | some d => parseDigits cs (acc * 10 + d)
    | none => none

/-- Parse a non-empty all-digit character list as a natural number. -/
def parseNat (cs : List Char) : Option Nat :=
  if cs = [] then none else parseDigits cs 0

/-- JSON string-content escaping: quote and backslash get a backslash. -/
def escapeChars : List Char → List Char
  | [] => []
  | c :: cs => (if c = '"' ∨ c = '\\' then ['\\', c] else [c]) ++ escapeChars cs

/-- Parse the body of a JSON string after the opening quote: returns the
unescaped content and the remainder after the closing quote. -/
def stringBody : List Char → Option (List Char × List Char)
  | [] => none
  | c :: rest =>
    if c = '"' then some ([], rest)
    else if c = '\\' then
      match rest with
      | [] => none
      | c2 :: rest2 => (stringBody rest2).map (fun p => (c2 :: p.1, p.2))
    else (stringBody rest).map (fun p => (c :: p.1, p.2))

/-- Decimal rendering of an integer. -/
def intChars (i : Int) : List Char :=
  if i < 0 then '-' :: natDigits i.natAbs else natDigits i.toNat

/-- Model of `JSON.stringify` on the supported value fragment. -/
def stringify : JsValue → String
  | .null => "null"
  | .bool true => "true"
  | .bool false => "false"
  | .num i => String.mk (intChars i)
  | .str s => String.mk ('"' :: (escapeChars s.data ++ ['"']))

/-- Model of `JSON.parse` on character lists. -/
def parseChars (cs : List Char) : Option JsValue :=
  if cs = ['n', 'u', 'l', 'l'] then some .null
  else if cs = ['t', 'r', 'u', 'e'] then some (.bool true)
  else if cs = ['f', 'a', 'l', 's', 'e'] then some (.bool false)
  else if cs.head? = some '"' then
    match stringBody cs.tail with
    | some (content, []) => some (.str (String.mk content))
    | _ => none
  else if cs.head? = some '-' then (parseNat cs.tail).map (fun n => JsValue.num (-(n : Int)))
  else (parseNat cs).map (fun n => JsValue.num (n : Int))

/-- Model of `JSON.parse` (throwing is modelled as `none`). -/
def parseJson (s : String) : Option JsValue := parseChars s.data

/-- Redis string keyspace: key, raw serialized value, absolute expiry time. -/
abbrev KV := List (String × String × Nat)

/-- Model of `SETEX key ttl value` with absolute expiry `expireAt`:
replaces any existing entry for the key. -/
def kvSet (kv : KV) (k v : String) (expireAt : Nat) : KV :=
  (k, v, expireAt) :: kv.filter (fun e => decide (e.1 ≠ k))

/-- Model of `GET key` at time `now`: the stored value unless expired. -/
def kvGet (kv : KV) (now : Nat) (k : String) : Option String :=
  match kv.find? (fun e => decide (e.1 = k)) with
  | some e => if now < e.2.2 then some e.2.1 else none
  | none => none

/-- Model of `DEL key`. -/
def kvDel (kv : KV) (k : String) : KV :=
  kv.filter (fun e => decide (e.1 ≠ k))

/-- Model of `EXPIRE key ttl` with absolute expiry `expireAt`: updates the
expiry of the entry when present, does nothing otherwise. -/
def kvExpire (kv : KV) (k : String) (expireAt : Nat) : KV :=
  kv.map (fun e => if e.1 = k then (e.1, e.2.1, expireAt) else e)

/-- Namespace prefixing of `RedisKeys.cache`. -/
def cacheKey (key : String) : String := "mcp:cache:" ++ key

/-- Namespace prefixing of `RedisKeys.sessionData`. -/
def sessionDataKey (sessionId : String) : String :=
  "mcp:session:" ++ sessionId ++ ":data"

/-- Namespace prefixing of `RedisKeys.rateLimit`. -/
def rateLimitKey (identifier : String) : String := "mcp:ratelimit:" ++ identifier

/-- Embedding of `RedisCache.get`: `null` when the client is not open, when the
awaited store call throws (`opOk = false`), when the key is absent, when the
stored string is falsy, or when parsing throws.  The returned `JsValue.null`
is the JavaScript `null` result. -/
def cacheGet (isOpen opOk : Bool) (kv : KV) (now : Nat) (key : String) : JsValue :=
  if isOpen = false then .null
  else if opOk = false then .null
  else
    match kvGet kv now (cacheKey key) with
    | none => .null
    | some raw => if raw = "" then .null else (parseJson raw).getD .null

/-- Embedding of `RedisCache.set`: `SETEX` of the stringified value; `false`
when the client is not open or the store call throws (a zero ttl makes
`SETEX` throw, which the catch turns into `false`). -/
def cacheSet (isOpen opOk : Bool) (kv : KV) (now : Nat) (key : String) (v : JsValue)
    (ttlSeconds : Nat) : Bool × KV :=
  if isOpen = false then (false, kv)
  else if opOk = false then (false, kv)
  else if ttlSeconds = 0 then (false, kv)
  else (true, kvSet kv (cacheKey key) (stringify v) (now + ttlSeconds))

/-- Embedding of `RedisCache.del`. -/
def cacheDel (isOpen opOk : Bool) (kv : KV) (key : String) : Bool × KV :=
  if isOpen = false then (false, kv)
  else if opOk = false then (false, kv)
  else (true, kvDel kv (cacheKey key))

/-- Embedding of `RedisCache.exists`. -/
def cacheExists (isOpen opOk : Bool) (kv : KV) (now : Nat) (key : String) : Bool :=
  if isOpen = false then false
  else if opOk = false then false
  else (kvGet kv now (cacheKey key)).isSome

/-- Embedding of `RedisSessionManager.createSession`. -/
def smCreate (isOpen opOk : Bool) (kv : KV) (now : Nat) (sessionId : String)
    (data : JsValue) (ttlSeconds : Nat) : Bool × KV :=
  if isOpen = false then (false, kv)
  else if opOk = false then (false, kv)
  else if ttlSeconds = 0 then (false, kv)
  else (true, kvSet kv (sessionDataKey sessionId) (stringify data) (now + ttlSeconds))

/-- Embedding of `RedisSessionManager.getSession`. -/
def smGet (isOpen opOk : Bool) (kv : KV) (now : Nat) (sessionId : String) : JsValue :=
  if isOpen = false then .null
  else if opOk = false then .null
  else
    match kvGet kv now (sessionDataKey sessionId) with
    | none => .null
    | some raw => if raw = "" then .null else (parseJson raw).getD .null

/-- Embedding of `RedisSessionManager.updateSession`. -/
def smUpdate (isOpen opOk : Bool) (kv : KV) (now : Nat) (sessionId : String)
    (data : JsValue) (ttlSeconds : Nat) : Bool × KV :=
  if isOpen = false then (false, kv)
  else if opOk = false then (false, kv)
  else if ttlSeconds = 0 then (false, kv)
  else (true, kvSet kv (sessionDataKey sessionId) (stringify data) (now + ttlSeconds))

/-- Embedding of `RedisSessionManager.deleteSession`. -/
def smDelete (isOpen opOk : Bool) (kv : KV) (sessionId : String) : Bool × KV :=
  if isOpen = false then (false, kv)
  else if opOk = false then (false, kv)
  else (true, kvDel kv (sessionDataKey sessionId))

/-- Embedding of `RedisSessionManager.extendSession`. -/
def smExtend (isOpen opOk : Bool) (kv : KV) (now : Nat) (sessionId : String)
    (ttlSeconds : Nat) : Bool × KV :=
  if isOpen = false then (false, kv)
  else if opOk = false then (false, kv)
  else (true, kvExpire kv (sessionDataKey sessionId) (now + ttlSeconds))

/-- Entry of the per-identifier sorted set at `RedisKeys.rateLimit identifier`:
score (milliseconds) and member value.  The member value written by
`checkLimit` is the template string of the timestamp and the random
tie-breaker, modelled as the pair (timestamp, tie-breaker). -/
abbrev RLEntry := Nat × Nat × Nat

/-- Result record of `RedisRateLimiter.checkLimit`; `remaining` is a JavaScript
number and can be negative, so it is an `Int`. -/
structure RateLimitResult where
  allowed : Bool
  remaining : Int
  resetTime : Nat
deriving DecidableEq, Repr

/-- Model of `ZADD key score member`: updates the score when the member value
is already present, appends otherwise. -/
def zAdd (s : List RLEntry) (score : Nat) (v : Nat × Nat) : List RLEntry :=
  if s.any (fun e => decide (e.2 = v)) then
    s.map (fun e => if e.2 = v then (score, v) else e)
  else s ++ [(score, v)]

/-- Embedding of `RedisRateLimiter.checkLimit` for one identifier: the state is
the sorted set stored at that identifier's key.  `now` is `Date.now()` in
milliseconds and `rand` the random tie-breaker of the member value.  When the
client is not open or the pipelined transaction throws (`opOk = false`), the
fail-open result is returned and the atomic batch leaves the set unchanged. -/
def checkLimit (isOpen opOk : Bool) (store : List RLEntry)
    (limit windowSeconds now rand : Nat) : RateLimitResult × List RLEntry :=
  if isOpen = false then
    (⟨true, (limit : Int) - 1, now + windowSeconds * 1000⟩, store)
  else if opOk = false then
    (⟨true, (limit : Int) - 1, now + windowSeconds * 1000⟩, store)
  else
    let windowStart : Int := (now : Int) - (windowSeconds : Int) * 1000
    let pruned := store.filter
      (fun e => decide (¬(0 ≤ (e.1 : Int) ∧ (e.1 : Int) ≤ windowStart)))
    let currentCount := pruned.length
    let afterAdd := zAdd pruned now (now, rand)
    (⟨decide (currentCount < limit),
      max 0 ((limit : Int) - (currentCount : Int) - 1),
      now + windowSeconds * 1000⟩, afterAdd)

/-- Embedding of `RedisRateLimiter.resetLimit` for one identifier. -/
def resetLimit (isOpen opOk : Bool) (store : List RLEntry) : Bool × List RLEntry :=
  if isOpen = false then (false, store)
  else if opOk = false then (false, store)
  else (true, [])

/-- Successive admission checks with the store available: each call supplies
its `Date.now()` timestamp and random tie-breaker. -/
def runChecks (limit windowSeconds : Nat) :
    List (Nat × Nat) → List RLEntry → List RateLimitResult × List RLEntry
  | [], s => ([], s)
  | c :: rest, s =>
    let r := checkLimit true true s limit windowSeconds c.1 c.2
    let tl := runChecks limit windowSeconds rest r.2
    (r.1 :: tl.1, tl.2)

/-- The result `checkLimit` computes from a pre-add window count of `count`
entries at time `now`. -/
def expectedRes (limit windowSeconds count now : Nat) : RateLimitResult :=
  ⟨decide (count < limit), max 0 ((limit : Int) - (count : Int) - 1),
    now + windowSeconds * 1000⟩

/-- Events delivered to the handlers installed by `createRedisClient`. -/
inductive REvent where
  | connectEvt
  | readyEvt
  | errorEvt
  | endEvt
  | reconnectingEvt
deriving DecidableEq, Repr

/-- Observable state of the closure captured by the `createRedisClient` event
handlers: the attempt counter, the shutting-down flag, and whether
`client.disconnect()` has been issued. -/
structure ClientState where
  connectionAttempts : Nat
  isShuttingDown : Bool
  disconnectIssued : Bool
deriving DecidableEq, Repr

/-- State captured at client creation. -/
def initialClientState : ClientState := ⟨0, false, false⟩

/-- Embedding of the `createRedisClient` event handlers: `connect` and `ready`
reset the counter, `error` increments it and, on reaching `maxAttempts = 3`
while not already shutting down, sets the terminal flag and schedules a
disconnect; `end` and `reconnecting` only log. -/
def clientStep (s : ClientState) : REvent → ClientState
  | .connectEvt => { s with connectionAttempts := 0 }
  | .readyEvt => { s with connectionAttempts := 0 }
  | .errorEvt =>
    if 3 ≤ s.connectionAttempts + 1 ∧ s.isShuttingDown = false then
      ⟨s.connectionAttempts + 1, true, true⟩
    else { s with connectionAttempts := s.connectionAttempts + 1 }
  | .endEvt => s
  | .reconnectingEvt => s

/-- Run of the client state machine over an event trace. -/
def clientRun (s : ClientState) (evts : List REvent) : ClientState :=
  evts.foldl clientStep s

/-- Transport configuration of `RestApiMcpServerConfig.transport`. -/
inductive TransportMode where
  | stdioMode
  | httpMode
  | bothMode
deriving DecidableEq, Repr

/-- Observable state of a `RestApiMcpServer` instance: the lifecycle flag, the
HTTP listener, the Redis client handle and whether it has been quit, the
session-transport registry (session id to transport handle), and the multiset
of handles on which `close()` has been invoked. -/
structure Srv where
  mode : TransportMode
  isRunning : Bool
  hasHttpServer : Bool
  httpClosed : Bool
  redisPresent : Bool
  redisQuit : Bool
  transports : List (String × Nat)
  closedHandles : List Nat
deriving DecidableEq, Repr

/-- Embedding of `RestApiMcpServer.cleanup`: when an HTTP server exists the
method returns from inside the first branch after closing it, so the Redis
quit and the transport closes below are not reached; otherwise it quits Redis
when present, then closes every registered transport and clears the map. -/
def cleanup (s : Srv) : Srv :=
  if s.hasHttpServer then { s with httpClosed := true }
  else
    let s1 := if s.redisPresent then { s with redisQuit := true } else s
    { s1 with
      closedHandles := s1.closedHandles ++ s1.transports.map Prod.snd,
      transports := [] }

/-- Embedding of `RestApiMcpServer.stop`: a no-op when not running, otherwise
`cleanup` followed by clearing the running flag. -/
def stop (s : Srv) : Srv :=
  if s.isRunning = false then s else { cleanup s with isRunning := false }

/-- Errors thrown by `RestApiMcpServer.start`. -/
inductive StartError where
  | alreadyRunning
  | startFailed
deriving DecidableEq, Repr

/-- Embedding of `RestApiMcpServer.start`: throws `AlreadyRunning` when the
running flag is set (before any mutation); otherwise initializes Redis
(`redisOk = false` models a failed connection, tolerated by nulling the
client), registers tools, and activates the configured transports; a failed
HTTP listen (`listenOk = false`) runs `cleanup` and rethrows. -/
def start (s : Srv) (redisOk listenOk : Bool) : Option StartError × Srv :=
  if s.isRunning then (some .alreadyRunning, s)
  else
    let s1 := { s with redisPresent := redisOk }
    if s.mode = .httpMode ∨ s.mode = .bothMode then
      if listenOk then (none, { s1 with hasHttpServer := true, isRunning := true })
      else (some .startFailed, cleanup s1)
    else (none, { s1 with isRunning := true })

/-- Session-transport registry of `RestApiMcpServer.transports`. -/
abbrev TransportMap := List (String × Nat)

/-- Lookup of `this.transports.get(sessionId)` / `this.transports.has`. -/
def lookupSession (m : TransportMap) (sid : String) : Option Nat :=
  (m.find? (fun e => decide (e.1 = sid))).map Prod.snd

/-- Outcome of routing a POST /mcp request: either an existing transport handle
is reused, or a new transport is constructed (and not yet registered). -/
inductive ReqOutcome where
  | reuse (handle : Nat)
  | created (handle : Nat)
deriving DecidableEq, Repr

/-- Embedding of the routing part of `RestApiMcpServer.handleMcpRequest`:
reuse the registered transport when the `mcp-session-id` header is truthy and
present in the map, otherwise construct a fresh transport (whose handle is the
externally supplied `freshHandle`).  The registry itself is not mutated here:
registration happens only in the `onsessioninitialized` callback. -/
def routeRequest (m : TransportMap) (header : Option String) (freshHandle : Nat) :
    ReqOutcome × TransportMap :=
  match header with
  | none => (.created freshHandle, m)
  | some sid =>
    if sid = "" then (.created freshHandle, m)
    else
      match lookupSession m sid with
      | some h => (.reuse h, m)
      | none => (.created freshHandle, m)

/-- Embedding of the `onsessioninitialized` callback:
`this.transports.set(newSessionId, transport)` (JavaScript `Map.set`: replace
when the key exists, append otherwise). -/
def onSessionInitialized (m : TransportMap) (sid : String) (handle : Nat) : TransportMap :=
  if (lookupSession m sid).isSome then
    m.map (fun e => if e.1 = sid then (sid, handle) else e)
  else m ++ [(sid, handle)]

/-- Embedding of the `transport.onclose` callback: delete the session id from
the registry when the transport carries one. -/
def onTransportClose (m : TransportMap) (sid : Option String) : TransportMap :=
  match sid with
  | some s => m.filter (fun e => decide (e.1 ≠ s))
  | none => m

/-- Outcome of a GET /mcp (server-push) request. -/
inductive SseOutcome where
  | rejected (status : Nat)
  | delegated (handle : Nat)
deriving DecidableEq, Repr

/-- Embedding of `RestApiMcpServer.handleMcpSse`: a falsy or unregistered
session id is rejected with HTTP 400, otherwise the request is delegated to
the registered transport. -/
def handleMcpSse (m : TransportMap) (header : Option String) : SseOutcome :=
  match header with
  | none => .rejected 400
  | some sid =>
    if sid = "" then .rejected 400
    else
      match lookupSession m sid with
      | some h => .delegated h
      | none => .rejected 400

/-- Embedding of `RestApiMcpServer.handleMcpSessionTermination`: when the id is
truthy and registered the transport is closed and removed; in every case the
response is HTTP 200 "Session terminated". -/
def handleMcpSessionTermination (m : TransportMap) (header : Option String) :
    Nat × TransportMap :=
  match header with
  | none => (200, m)
  | some sid =>
    if sid = "" then (200, m)
    else
      match lookupSession m sid with
      | some _ => (200, m.filter (fun e => decide (e.1 ≠ sid)))
      | none => (200, m)

theorem natDigits_ne_nil (n : Nat) : natDigits n ≠ [] := by
  rw [natDigits]
  split <;> simp

theorem digitChar_toNat (d : Nat) (h : d < 10) : (digitChar d).toNat = 48 + d := by
  interval_cases d <;> decide

theorem natDigits_isDigit (n : Nat) : ∀ c ∈ natDigits n, 48 ≤ c.toNat ∧ c.toNat ≤ 57 := by
  induction n using Nat.strong_induction_on with
  | _ n ih =>
    rw [natDigits]
    split
    · intro c hc
      simp only [List.mem_singleton] at hc
      subst hc
      rw [digitChar_toNat _ (by omega)]
      omega
    · intro c hc
      rw [List.mem_append] at hc
      rcases hc with hc | hc
      · exact ih (n / 10) (Nat.div_lt_self (by omega) (by omega)) c hc
      · simp only [List.mem_singleton] at hc
        subst hc
        rw [digitChar_toNat _ (Nat.mod_lt _ (by omega))]
        have := Nat.mod_lt n (y := 10) (by omega)
        omega

theorem digitVal_digitChar (d : Nat) (h : d < 10) : digitVal (digitChar d) = some d := by
  interval_cases d <;> decide

theorem parseDigits_append (cs₁ cs₂ : List Char) (acc : Nat) :
    parseDigits (cs₁ ++ cs₂) acc =
      (parseDigits cs₁ acc).bind (fun a => parseDigits cs₂ a) := by
  induction cs₁ generalizing acc with
  | nil => simp [parseDigits]
  | cons c cs ih =>
    simp only [List.cons_append, parseDigits]
    cases digitVal c <;> simp [ih]

theorem parseDigits_natDigits (n : Nat) :
    ∀ acc, parseDigits (natDigits n) acc = some (acc * 10 ^ (natDigits n).length + n) := by
  induction n using Nat.strong_induction_on with
  | _ n ih =>
    intro acc
    rw [natDigits]
    split
    · next h =>
      simp only [parseDigits, digitVal_digitChar n h, List.length_singleton, pow_one]
    · next h =>
      rw [parseDigits_append, ih (n / 10) (Nat.div_lt_self (by omega) (by omega)) acc]
      have hm : n % 10 < 10 := Nat.mod_lt _ (by omega)
      simp only [Option.some_bind, parseDigits, digitVal_digitChar _ hm, List.length_append,
        List.length_singleton]
      have h1 : n / 10 * 10 + n % 10 = n := by omega
      have h2 : (acc * 10 ^ (natDigits (n / 10)).length + n / 10) * 10 + n % 10 =
          acc * (10 ^ (natDigits (n / 10)).length * 10) + (n / 10 * 10 + n % 10) := by ring
      rw [h2, h1, ← pow_succ]

theorem parseNat_natDigits (n : Nat) : parseNat (natDigits n) = some n := by
  rw [parseNat, if_neg (natDigits_ne_nil n), parseDigits_natDigits]
  simp

theorem stringBody_escape (cs tl : List Char) :
    stringBody (escapeChars cs ++ '"' :: tl) = some (cs, tl) := by
  induction cs with
  | nil =>
    show stringBody ('"' :: tl) = some ([], tl)
    rw [stringBody.eq_def]
    simp
  | cons c cs ih =>
    by_cases hc : c = '"' ∨ c = '\\'
    · simp only [escapeChars, if_pos hc, List.cons_append, List.append_assoc]
      rw [stringBody.eq_def]
      simp [ih]
    · simp only [escapeChars, if_neg hc, List.cons_append, List.append_assoc]
      push_neg at hc
      rw [stringBody.eq_def]
      simp [hc.1, hc.2, ih]

theorem parseChars_digits (cs : List Char) (h : cs ≠ [])
    (hd : ∀ c ∈ cs, 48 ≤ c.toNat ∧ c.toNat ≤ 57) :
    parseChars cs = (parseDigits cs 0).map (fun n => JsValue.num (n : Int)) := by
  obtain ⟨c, cs', rfl⟩ := List.exists_cons_of_ne_nil h
  have hc := hd c (List.mem_cons_self c cs')
  rw [parseChars]
  rw [if_neg (by intro he; injection he with h1 _; subst h1; revert hc; decide)]
  rw [if_neg (by intro he; injection he with h1 _; subst h1; revert hc; decide)]
  rw [if_neg (by intro he; injection he with h1 _; subst h1; revert hc; decide)]
  rw [if_neg (by
    simp only [List.head?_cons, Option.some.injEq]
    intro h1; subst h1; revert hc; decide)]
  rw [if_neg (by
    simp only [List.head?_cons, Option.some.injEq]
    intro h1; subst h1; revert hc; decide)]
  rw [parseNat, if_neg (by simp)]

/-- Round trip of the modelled JSON codec: parsing a stringified value gives
the value back. -/
theorem parseJson_stringify (v : JsValue) : parseJson (stringify v) = some v := by
  cases v with
  | null => decide
  | bool b => cases b <;> decide
  | num i =>
    show parseChars (intChars i) = some (JsValue.num i)
    rw [intChars]
    split
    · next hneg =>
      rw [parseChars]
      rw [if_neg (by intro he; injection he with h1 _; revert h1; decide)]
      rw [if_neg (by intro he; injection he with h1 _; revert h1; decide)]
      rw [if_neg (by intro he; injection he with h1 _; revert h1; decide)]
      rw [if_neg (by simp only [List.head?_cons, Option.some.injEq]; decide)]
      rw [if_pos (by simp)]
      simp [parseNat_natDigits]
      rw [abs_of_neg hneg, neg_neg]
    · next hneg =>
      rw [parseChars_digits _ (natDigits_ne_nil _) (natDigits_isDigit _)]
      rw [parseDigits_natDigits]
      have h3 : ((i.toNat : Nat) : Int) = i := by omega
      simp [h3]
  | str s =>
    show parseChars ('"' :: (escapeChars s.data ++ ['"'])) = some (JsValue.str s)
    rw [parseChars]
    rw [if_neg (by intro he; injection he with h1 _; revert h1; decide)]
    rw [if_neg (by intro he; injection he with h1 _; revert h1; decide)]
    rw [if_neg (by intro he; injection he with h1 _; revert h1; decide)]
    rw [if_pos (by simp)]
    have hb : stringBody (escapeChars s.data ++ ['"']) = some (s.data, []) :=
      stringBody_escape s.data []
    simp only [List.tail_cons, hb]

theorem stringify_data_ne_nil (v : JsValue) : (stringify v).data ≠ [] := by
  cases v with
  | null => decide
  | bool b => cases b <;> decide
  | num i =>
    show intChars i ≠ []
    rw [intChars]
    split
    · simp
    · exact natDigits_ne_nil _
  | str s => simp [stringify]

theorem stringify_ne_empty (v : JsValue) : stringify v ≠ "" := by
  intro h
  exact stringify_data_ne_nil v (congrArg String.data h)

theorem kvGet_kvSet_self (kv : KV) (k v : String) (expireAt now : Nat) :
    kvGet (kvSet kv k v expireAt) now k =
      if now < expireAt then some v else none := by
  simp [kvGet, kvSet, List.find?_cons]

theorem find?_filter_ne (kv : KV) (k : String) :
    (kv.filter (fun e => decide (e.1 ≠ k))).find? (fun e => decide (e.1 = k)) = none := by
  induction kv with
  | nil => rfl
  | cons e t ih =>
    by_cases h : e.1 = k <;> simp [List.filter_cons, h, List.find?_cons, ih]

theorem kvGet_kvDel_self (kv : KV) (k : String) (now : Nat) :
    kvGet (kvDel kv k) now k = none := by
  unfold kvGet kvDel
  rw [find?_filter_ne kv k]

theorem checkLimit_open (s : List RLEntry) (L W now rand : Nat)
    (hlive : ∀ e ∈ s, ¬(0 ≤ (e.1 : Int) ∧ (e.1 : Int) ≤ (now : Int) - (W : Int) * 1000))
    (hfresh : ∀ e ∈ s, e.2 ≠ (now, rand)) :
    checkLimit true true s L W now rand =
      (expectedRes L W s.length now, s ++ [(now, (now, rand))]) := by
  unfold checkLimit
  have hf : s.filter
      (fun e => decide (¬(0 ≤ (e.1 : Int) ∧ (e.1 : Int) ≤ (now : Int) - (W : Int) * 1000))) = s :=
    List.filter_eq_self.mpr (fun e he => decide_eq_true (hlive e he))
  have hz : s.any (fun e => decide (e.2 = (now, rand))) = false := by
    rw [List.any_eq_false]
    intro e he
    simpa using hfresh e he
  simp only [if_neg (by simp : ¬(true = false))]
  rw [hf]
  unfold zAdd
  rw [hz]
  rfl

theorem runChecks_eq (L W : Nat) :
    ∀ (calls : List (Nat × Nat)) (s : List RLEntry),
      (∀ e ∈ s, ∀ c ∈ calls,
        ¬(0 ≤ (e.1 : Int) ∧ (e.1 : Int) ≤ (c.1 : Int) - (W : Int) * 1000)) →
      (∀ e ∈ s, ∀ c ∈ calls, e.2 ≠ c) →
      calls.Pairwise (fun c c' =>
        ¬(0 ≤ (c.1 : Int) ∧ (c.1 : Int) ≤ (c'.1 : Int) - (W : Int) * 1000)) →
      calls.Nodup →
      runChecks L W calls s =
        ((List.range calls.length).map
          (fun i => expectedRes L W (s.length + i) (calls.getD i (0, 0)).1),
         s ++ calls.map (fun c => (c.1, c))) := by
  intro calls
  induction calls with
  | nil => intro s _ _ _ _; simp [runChecks]
  | cons c rest ih =>
    intro s h1 h2 hp hn
    rw [List.pairwise_cons] at hp
    rw [List.nodup_cons] at hn
    have hstep := checkLimit_open s L W c.1 c.2
      (fun e he => h1 e he c (List.mem_cons_self c rest))
      (fun e he => by
        have := h2 e he c (List.mem_cons_self c rest)
        simpa using this)
    have h1' : ∀ e ∈ s ++ [(c.1, (c.1, c.2))], ∀ c' ∈ rest,
        ¬(0 ≤ (e.1 : Int) ∧ (e.1 : Int) ≤ (c'.1 : Int) - (W : Int) * 1000) := by
      intro e he c' hc'
      rw [List.mem_append] at he
      rcases he with he | he
      · exact h1 e he c' (List.mem_cons_of_mem c hc')
      · simp only [List.mem_singleton] at he
        subst he
        exact hp.1 c' hc'
    have h2' : ∀ e ∈ s ++ [(c.1, (c.1, c.2))], ∀ c' ∈ rest, e.2 ≠ c' := by
      intro e he c' hc'
      rw [List.mem_append] at he
      rcases he with he | he
      · exact h2 e he c' (List.mem_cons_of_mem c hc')
      · simp only [List.mem_singleton] at he
        subst he
        intro hcc
        exact hn.1 (by rw [show c = c' from by rw [← hcc]]; exact hc')
    have htail := ih (s ++ [(c.1, (c.1, c.2))]) h1' h2' hp.2 hn.2
    have hunf : runChecks L W (c :: rest) s =
        ((checkLimit true true s L W c.1 c.2).1 ::
          (runChecks L W rest (checkLimit true true s L W c.1 c.2).2).1,
         (runChecks L W rest (checkLimit true true s L W c.1 c.2).2).2) := rfl
    rw [hunf]
    simp only [hstep, htail, Prod.mk.injEq]
    constructor
    · rw [List.length_cons, List.range_succ_eq_map, List.map_cons, List.map_map]
      rw [List.cons.injEq]
      constructor
      · simp
      · congr 1
        funext i
        simp only [Function.comp_apply, List.getD_cons_succ, List.length_append,
          List.length_singleton]
        congr 1
        omega
    · simp [List.append_assoc]

theorem lookupSession_eq_none_iff (m : TransportMap) (sid : String) :
    lookupSession m sid = none ↔ sid ∉ m.map Prod.fst := by
  unfold lookupSession
  rw [Option.map_eq_none', List.find?_eq_none]
  constructor
  · intro h hm
    rw [List.mem_map] at hm
    obtain ⟨e, he, hesid⟩ := hm
    exact h e he (by simp [hesid])
  · intro h e he
    simp only [decide_eq_true_eq]
    intro hesid
    exact h (hesid ▸ List.mem_map_of_mem Prod.fst he)

theorem lookupSession_map_set (m : TransportMap) (sid : String) (handle : Nat)
    (h : (lookupSession m sid).isSome) :
    lookupSession (m.map (fun e => if e.1 = sid then (sid, handle) else e)) sid =
      some handle := by
  induction m with
  | nil => simp [lookupSession] at h
  | cons e t ih =>
    by_cases he : e.1 = sid
    · simp [lookupSession, List.find?_cons, he]
    · have h' : (lookupSession t sid).isSome := by
        simpa [lookupSession, List.find?_cons, he] using h
      simpa [lookupSession, List.find?_cons, he] using ih h'

theorem lookupSession_append_fresh (m : TransportMap) (sid : String) (handle : Nat)
    (h : lookupSession m sid = none) :
    lookupSession (m ++ [(sid, handle)]) sid = some handle := by
  induction m with
  | nil => simp [lookupSession, List.find?_cons]
  | cons e t ih =>
    by_cases he : e.1 = sid
    · exfalso
      simp [lookupSession, List.find?_cons, he] at h
    · have h' : lookupSession t sid = none := by
        simpa [lookupSession, List.find?_cons, he] using h
      simpa [lookupSession, List.find?_cons, he] using ih h'

theorem onSessionInitialized_lookup (m : TransportMap) (sid : String) (handle : Nat) :
    lookupSession (onSessionInitialized m sid handle) sid = some handle := by
  unfold onSessionInitialized
  split
  · next h => exact lookupSession_map_set m sid handle h
  · next h =>
    exact lookupSession_append_fresh m sid handle (Option.not_isSome_iff_eq_none.mp h)

theorem onSessionInitialized_nodup (m : TransportMap) (sid : String) (handle : Nat)
    (h : (m.map Prod.fst).Nodup) :
    ((onSessionInitialized m sid handle).map Prod.fst).Nodup := by
  unfold onSessionInitialized
  split
  · have hkeys : (m.map (fun e => if e.1 = sid then (sid, handle) else e)).map Prod.fst =
        m.map Prod.fst := by
      rw [List.map_map]
      apply List.map_congr_left
      intro e _
      by_cases hs : e.1 = sid <;> simp [hs]
    rw [hkeys]
    exact h
  · next hn =>
    have hnot : sid ∉ m.map Prod.fst :=
      (lookupSession_eq_none_iff m sid).mp (Option.not_isSome_iff_eq_none.mp hn)
    rw [List.map_append, List.nodup_append]
    refine ⟨h, by simp, ?_⟩
    intro a ha hb
    simp only [List.map_cons, List.map_nil, List.mem_singleton] at hb
    subst hb
    exact hnot ha

/-- C1: with the store available, `checkLimit` admits from the pruned window
count before the new entry is added, so for a trace of `L + 1` checks within
the window (pairwise-distinct member values, every earlier timestamp strictly
inside every later call's window), the first `L` checks return
`allowed = true`, the `(L+1)`-th returns `allowed = false`, and the `i`-th
result is exactly `expectedRes L W i` — in particular
`remaining = max 0 (L - i - 1)` and `resetTime = now + W * 1000`. -/
theorem rateLimiter_sliding_window (L W : Nat) (calls : List (Nat × Nat))
    (hlen : calls.length = L + 1)
    (hwin : calls.Pairwise (fun c c' =>
      ¬(0 ≤ (c.1 : Int) ∧ (c.1 : Int) ≤ (c'.1 : Int) - (W : Int) * 1000)))
    (hnodup : calls.Nodup) :
    (∀ i, i < L → ((runChecks L W calls []).1.getD i ⟨false, 0, 0⟩).allowed = true)
    ∧ ((runChecks L W calls []).1.getD L ⟨false, 0, 0⟩).allowed = false
    ∧ (∀ i, i < calls.length →
        (runChecks L W calls []).1.getD i ⟨false, 0, 0⟩ =
          expectedRes L W i (calls.getD i (0, 0)).1) := by
  have h := runChecks_eq L W calls [] (by simp) (by simp) hwin hnodup
  have hres : (runChecks L W calls []).1 =
      (List.range calls.length).map (fun i => expectedRes L W i (calls.getD i (0, 0)).1) := by
    rw [h]
    simp
  have hgetD : ∀ i, i < calls.length →
      (runChecks L W calls []).1.getD i ⟨false, 0, 0⟩ =
        expectedRes L W i (calls.getD i (0, 0)).1 := by
    intro i hi
    rw [hres, List.getD_eq_getElem?_getD, List.getElem?_map, List.getElem?_range hi]
    rfl
  refine ⟨?_, ?_, hgetD⟩
  · intro i hi
    rw [hgetD i (by omega)]
    simp [expectedRes, hi]
  · rw [hgetD L (by omega)]
    simp [expectedRes]

/-- Witness for C1: the documented scenario with `L = 3`, `W = 60` and four
checks in the same window; the fourth is denied. -/
theorem rateLimiter_sliding_window_witness :
    ([(0, 0), (0, 1), (0, 2), (0, 3)] : List (Nat × Nat)).length = 3 + 1
    ∧ ((runChecks 3 60 [(0, 0), (0, 1), (0, 2), (0, 3)] []).1.getD 3
        ⟨false, 0, 0⟩).allowed = false :=
  ⟨rfl, (rateLimiter_sliding_window 3 60 [(0, 0), (0, 1), (0, 2), (0, 3)] rfl
    (by decide) (by decide)).2.1⟩

/-- C2 (failing input): a server started with the HTTP transport has
`httpServer` set, so `cleanup` returns from the first branch: `stop` closes
the HTTP listener and clears the running flag, but the registered session
transport is never closed, the transports map stays non-empty, and the Redis
connection is never quit — contradicting the specified shutdown order. -/
theorem stop_with_httpServer_skips_transports_and_redis :
    (stop ⟨TransportMode.httpMode, true, true, false, true, false,
        [("sess-1", 1)], []⟩).transports = [("sess-1", 1)]
    ∧ (stop ⟨TransportMode.httpMode, true, true, false, true, false,
        [("sess-1", 1)], []⟩).redisQuit = false
    ∧ (stop ⟨TransportMode.httpMode, true, true, false, true, false,
        [("sess-1", 1)], []⟩).closedHandles = []
    ∧ (stop ⟨TransportMode.httpMode, true, true, false, true, false,
        [("sess-1", 1)], []⟩).httpClosed = true
    ∧ (stop ⟨TransportMode.httpMode, true, true, false, true, false,
        [("sess-1", 1)], []⟩).isRunning = false :=
  ⟨rfl, rfl, rfl, rfl, rfl⟩

/-- C3 (counterexample): the attempt counter is not monotonically
non-decreasing over the process lifetime — a `connect` event after an `error`
event resets it from 1 back to 0. -/
theorem redisClient_attempt_counter_not_monotonic :
    (clientRun initialClientState [REvent.errorEvt]).connectionAttempts = 1
    ∧ (clientRun initialClientState [REvent.errorEvt, REvent.connectEvt]).connectionAttempts
        = 0 := by
  decide

/-- C3 (amended): the counter is non-decreasing across events other than
`connect`/`ready` (which reset it to 0); once the shutting-down flag is set it
survives every later event, as does the issued disconnect; and an `error`
event that brings the counter to the threshold 3 while not shutting down sets
the terminal flag and issues the disconnect. -/
theorem redisClient_threshold_terminal :
    (∀ (s : ClientState) (e : REvent), e ≠ REvent.connectEvt → e ≠ REvent.readyEvt →
      s.connectionAttempts ≤ (clientStep s e).connectionAttempts)
    ∧ (∀ (s : ClientState) (evts : List REvent), s.isShuttingDown = true →
        (clientRun s evts).isShuttingDown = true)
    ∧ (∀ (s : ClientState) (evts : List REvent), s.disconnectIssued = true →
        (clientRun s evts).disconnectIssued = true)
    ∧ (∀ s : ClientState, s.isShuttingDown = false → 2 ≤ s.connectionAttempts →
        clientStep s REvent.errorEvt = ⟨s.connectionAttempts + 1, true, true⟩) := by
  have hshut : ∀ (s : ClientState) (e : REvent), s.isShuttingDown = true →
      (clientStep s e).isShuttingDown = true := by
    intro s e h
    cases e <;> simp [clientStep, h]
  have hdisc : ∀ (s : ClientState) (e : REvent), s.disconnectIssued = true →
      (clientStep s e).disconnectIssued = true := by
    intro s e h
    cases e <;> simp [clientStep, h]
    split <;> simp [h]
  refine ⟨?_, ?_, ?_, ?_⟩
  · intro s e h1 h2
    cases e with
    | connectEvt => exact absurd rfl h1
    | readyEvt => exact absurd rfl h2
    | errorEvt =>
      simp only [clientStep]
      split <;> simp
    | endEvt => exact Nat.le_refl _
    | reconnectingEvt => exact Nat.le_refl _
  · intro s evts
    induction evts generalizing s with
    | nil => exact fun h => h
    | cons e t ih => exact fun h => ih (clientStep s e) (hshut s e h)
  · intro s evts
    induction evts generalizing s with
    | nil => exact fun h => h
    | cons e t ih => exact fun h => ih (clientStep s e) (hdisc s e h)
  · intro s h1 h2
    simp only [clientStep]
    rw [if_pos ⟨by omega, h1⟩]

/-- Witness for C3 (amended): with two prior errors and not shutting down, a
third error reaches the threshold and enters the terminal disconnected
state. -/
theorem redisClient_threshold_terminal_witness :
    (⟨2, false, false⟩ : ClientState).isShuttingDown = false
    ∧ clientStep ⟨2, false, false⟩ REvent.errorEvt = ⟨3, true, true⟩ :=
  ⟨rfl, redisClient_threshold_terminal.2.2.2 ⟨2, false, false⟩ rfl (by decide)⟩

/-- C4: when the client is not open or the pipelined batch throws,
`checkLimit` fails open — `allowed = true`, `remaining = limit - 1`,
`resetTime = now + windowSeconds * 1000` — for every prior window state. -/
theorem rateLimiter_fail_open (isOpen opOk : Bool) (store : List RLEntry)
    (limit windowSeconds now rand : Nat) (h : isOpen = false ∨ opOk = false) :
    checkLimit isOpen opOk store limit windowSeconds now rand =
      (⟨true, (limit : Int) - 1, now + windowSeconds * 1000⟩, store) := by
  rcases h with h | h
  · subst h
    simp [checkLimit]
  · subst h
    cases isOpen <;> simp [checkLimit]

/-- Witness for C4: a closed client with a long prior history still allows. -/
theorem rateLimiter_fail_open_witness :
    checkLimit false true [(0, 0, 0), (1, 1, 1), (2, 2, 2)] 2 60 1000 7 =
      (⟨true, 1, 61000⟩, [(0, 0, 0), (1, 1, 1), (2, 2, 2)]) :=
  rateLimiter_fail_open false true [(0, 0, 0), (1, 1, 1), (2, 2, 2)] 2 60 1000 7
    (Or.inl rfl)

/-- C5: every session-manager operation fails closed when the client is not
open or the store operation throws: `getSession` returns null, the others
return `false`, the keyspace is untouched, and (by totality of the embedding)
no exception escapes. -/
theorem sessionManager_fail_closed (isOpen opOk : Bool) (kv : KV) (now : Nat)
    (sid : String) (data : JsValue) (ttl : Nat) (h : isOpen = false ∨ opOk = false) :
    smGet isOpen opOk kv now sid = JsValue.null
    ∧ smCreate isOpen opOk kv now sid data ttl = (false, kv)
    ∧ smUpdate isOpen opOk kv now sid data ttl = (false, kv)
    ∧ smDelete isOpen opOk kv sid = (false, kv)
    ∧ smExtend isOpen opOk kv now sid ttl = (false, kv) := by
  rcases h with h | h <;> subst h
  · simp [smGet, smCreate, smUpdate, smDelete, smExtend]
  · cases isOpen <;> simp [smGet, smCreate, smUpdate, smDelete, smExtend]

/-- Witness for C5: a closed client fails every operation on a non-empty
keyspace. -/
theorem sessionManager_fail_closed_witness :
    smGet false true [("k", "v", 9)] 0 "sid" = JsValue.null
    ∧ smCreate false true [("k", "v", 9)] 0 "sid" JsValue.null 3600 =
        (false, [("k", "v", 9)])
    ∧ smUpdate false true [("k", "v", 9)] 0 "sid" JsValue.null 3600 =
        (false, [("k", "v", 9)])
    ∧ smDelete false true [("k", "v", 9)] "sid" = (false, [("k", "v", 9)])
    ∧ smExtend false true [("k", "v", 9)] 0 "sid" 3600 = (false, [("k", "v", 9)]) :=
  sessionManager_fail_closed false true [("k", "v", 9)] 0 "sid" JsValue.null 3600
    (Or.inl rfl)

/-- C6 (counterexample): a DELETE /mcp request with an unknown session id is
answered with HTTP 200 "Session terminated", which is not a 4xx client
error — the termination endpoint does not surface unknown sessions. -/
theorem terminate_unknown_session_returns_200 :
    (handleMcpSessionTermination [] (some "unknown")).1 = 200
    ∧ ¬(400 ≤ (handleMcpSessionTermination [] (some "unknown")).1
        ∧ (handleMcpSessionTermination [] (some "unknown")).1 < 500) := by
  decide

/-- C6 (amended): an unknown (or missing/empty) session id on the streaming
GET endpoint is rejected with HTTP 400 and no session is created; the
termination DELETE endpoint instead responds 200 idempotently, leaving the
registry unchanged and creating no session. -/
theorem unknown_session_streaming_rejected (m : TransportMap) (sid : String)
    (hsid : sid ≠ "") (h : lookupSession m sid = none) :
    handleMcpSse m (some sid) = SseOutcome.rejected 400
    ∧ handleMcpSse m none = SseOutcome.rejected 400
    ∧ handleMcpSessionTermination m (some sid) = (200, m) := by
  refine ⟨?_, rfl, ?_⟩
  · simp [handleMcpSse, hsid, h]
  · simp [handleMcpSessionTermination, hsid, h]

/-- Witness for C6 (amended): an id not present in a singleton registry. -/
theorem unknown_session_streaming_rejected_witness :
    ("b" : String) ≠ ""
    ∧ lookupSession [("a", 1)] "b" = none
    ∧ handleMcpSse [("a", 1)] (some "b") = SseOutcome.rejected 400
    ∧ handleMcpSessionTermination [("a", 1)] (some "b") = (200, [("a", 1)]) := by
  have h := unknown_session_streaming_rejected [("a", 1)] "b" (by decide) (by decide)
  exact ⟨by decide, by decide, h.1, h.2.2⟩

/-- C7: the routing of POST /mcp reuses the registered transport for any two
requests carrying the same active session id (no second handle is built), a
request without an id yields a freshly constructed handle, routing never
mutates the registry (registration happens only in the `onsessioninitialized`
callback), registration makes the id resolve to exactly that handle while
preserving key uniqueness, and an id absent from the key set is unknown
(so a freshly generated id that is not in the registry resolves to nothing
until its handle initializes). -/
theorem session_registry_routing :
    (∀ (m : TransportMap) (sid : String) (h f g : Nat), sid ≠ "" →
        lookupSession m sid = some h →
        routeRequest m (some sid) f = (ReqOutcome.reuse h, m)
        ∧ routeRequest m (some sid) g = (ReqOutcome.reuse h, m))
    ∧ (∀ (m : TransportMap) (f : Nat), routeRequest m none f = (ReqOutcome.created f, m))
    ∧ (∀ (m : TransportMap) (header : Option String) (f : Nat),
        (routeRequest m header f).2 = m)
    ∧ (∀ (m : TransportMap) (sid : String) (handle : Nat),
        lookupSession (onSessionInitialized m sid handle) sid = some handle)
    ∧ (∀ (m : TransportMap) (sid : String) (handle : Nat), (m.map Prod.fst).Nodup →
        ((onSessionInitialized m sid handle).map Prod.fst).Nodup)
    ∧ (∀ (m : TransportMap) (sid : String), sid ∉ m.map Prod.fst →
        lookupSession m sid = none) := by
  refine ⟨?_, fun m f => rfl, ?_, onSessionInitialized_lookup, onSessionInitialized_nodup,
    fun m sid h => (lookupSession_eq_none_iff m sid).mpr h⟩
  · intro m sid h f g hsid hl
    constructor <;> simp [routeRequest, hsid, hl]
  · intro m header f
    cases header with
    | none => rfl
    | some sid =>
      by_cases hs : sid = ""
      · simp [routeRequest, hs]
      · simp only [routeRequest, if_neg hs]
        cases lookupSession m sid <;> simp

/-- Witness for C7: a concrete registry with one active session. -/
theorem session_registry_routing_witness :
    ("s" : String) ≠ ""
    ∧ lookupSession [("s", 5)] "s" = some 5
    ∧ routeRequest [("s", 5)] (some "s") 6 = (ReqOutcome.reuse 5, [("s", 5)])
    ∧ routeRequest [("s", 5)] (some "s") 7 = (ReqOutcome.reuse 5, [("s", 5)]) := by
  have h := session_registry_routing.1 [("s", 5)] "s" 5 6 7 (by decide) (by decide)
  exact ⟨by decide, by decide, h.1, h.2⟩

/-- C8: `start` on a running server throws `AlreadyRunning` before any
mutation, leaving the server unchanged; `stop` on a non-running server is a
silent no-op. -/
theorem lifecycle_start_stop_misuse (s : Srv) (redisOk listenOk : Bool) :
    (s.isRunning = true → start s redisOk listenOk = (some StartError.alreadyRunning, s))
    ∧ (s.isRunning = false → stop s = s) := by
  constructor
  · intro h
    simp [start, h]
  · intro h
    simp [stop, h]

/-- Witness for C8: a running stdio server refuses a second start; a
never-started server stops silently. -/
theorem lifecycle_start_stop_misuse_witness :
    start ⟨TransportMode.stdioMode, true, false, false, false, false, [], []⟩ true true =
      (some StartError.alreadyRunning,
        ⟨TransportMode.stdioMode, true, false, false, false, false, [], []⟩)
    ∧ stop ⟨TransportMode.stdioMode, false, false, false, false, false, [], []⟩ =
        ⟨TransportMode.stdioMode, false, false, false, false, false, [], []⟩ :=
  ⟨(lifecycle_start_stop_misuse ⟨TransportMode.stdioMode, true, false, false, false,
      false, [], []⟩ true true).1 rfl,
   (lifecycle_start_stop_misuse ⟨TransportMode.stdioMode, false, false, false, false,
      false, [], []⟩ true true).2 rfl⟩

/-- C9: with the store available and a positive ttl, `set k v ttl` returns
`true` and an immediate `get k` returns the JSON round-tripped value, equal
to `v`; after `del k` returns `true`, `get k` is absent (null). -/
theorem cache_set_get_del_roundtrip (kv : KV) (now : Nat) (key : String) (v : JsValue)
    (ttl : Nat) (httl : 0 < ttl) :
    (cacheSet true true kv now key v ttl).1 = true
    ∧ cacheGet true true (cacheSet true true kv now key v ttl).2 now key = v
    ∧ (cacheDel true true (cacheSet true true kv now key v ttl).2 key).1 = true
    ∧ cacheGet true true
        (cacheDel true true (cacheSet true true kv now key v ttl).2 key).2 now key
      = JsValue.null := by
  have hset : cacheSet true true kv now key v ttl =
      (true, kvSet kv (cacheKey key) (stringify v) (now + ttl)) := by
    unfold cacheSet
    rw [if_neg (by simp), if_neg (by simp), if_neg (by omega)]
  have hget : cacheGet true true (kvSet kv (cacheKey key) (stringify v) (now + ttl))
      now key = v := by
    unfold cacheGet
    rw [if_neg (by simp), if_neg (by simp), kvGet_kvSet_self, if_pos (by omega)]
    show (if stringify v = "" then JsValue.null
      else (parseJson (stringify v)).getD JsValue.null) = v
    rw [if_neg (stringify_ne_empty v), parseJson_stringify]
    rfl
  have hdel : cacheDel true true (kvSet kv (cacheKey key) (stringify v) (now + ttl)) key =
      (true, kvDel (kvSet kv (cacheKey key) (stringify v) (now + ttl)) (cacheKey key)) := by
    unfold cacheDel
    rw [if_neg (by simp), if_neg (by simp)]
  have hget2 : cacheGet true true
      (kvDel (kvSet kv (cacheKey key) (stringify v) (now + ttl)) (cacheKey key)) now key =
      JsValue.null := by
    unfold cacheGet
    rw [if_neg (by simp), if_neg (by simp), kvGet_kvDel_self]
  rw [hset]
  exact ⟨rfl, hget, by rw [hdel], by rw [hdel]; exact hget2⟩

/-- Witness for C9: a boolean value round-trips through a fresh store. -/
theorem cache_set_get_del_roundtrip_witness :
    (0 : Nat) < 300
    ∧ cacheGet true true (cacheSet true true [] 0 "k" (JsValue.bool true) 300).2 0 "k"
        = JsValue.bool true :=
  ⟨by decide,
   (cache_set_get_del_roundtrip [] 0 "k" (JsValue.bool true) 300 (by decide)).2.1⟩

/-- C10: storing `null` succeeds, but the subsequent `get` returns null — the
same observable result as for an absent key (the public interface cannot
distinguish a stored null from absence), so the round-trip is only
distinguishable from absence for non-null values. -/
theorem cache_null_indistinguishable_from_absent (kv : KV) (now : Nat) (key : String)
    (ttl : Nat) (httl : 0 < ttl) :
    (cacheSet true true kv now key JsValue.null ttl).1 = true
    ∧ cacheGet true true (cacheSet true true kv now key JsValue.null ttl).2 now key
        = JsValue.null
    ∧ cacheGet true true (kvDel kv (cacheKey key)) now key = JsValue.null := by
  have hset : cacheSet true true kv now key JsValue.null ttl =
      (true, kvSet kv (cacheKey key) (stringify JsValue.null) (now + ttl)) := by
    unfold cacheSet
    rw [if_neg (by simp), if_neg (by simp), if_neg (by omega)]
  have hget : cacheGet true true
      (kvSet kv (cacheKey key) (stringify JsValue.null) (now + ttl)) now key =
      JsValue.null := by
    unfold cacheGet
    rw [if_neg (by simp), if_neg (by simp), kvGet_kvSet_self, if_pos (by omega)]
    show (if stringify JsValue.null = "" then JsValue.null
      else (parseJson (stringify JsValue.null)).getD JsValue.null) = JsValue.null
    rw [if_neg (stringify_ne_empty JsValue.null), parseJson_stringify]
    rfl
  have habsent : cacheGet true true (kvDel kv (cacheKey key)) now key = JsValue.null := by
    unfold cacheGet
    rw [if_neg (by simp), if_neg (by simp), kvGet_kvDel_self]
  rw [hset]
  exact ⟨rfl, hget, habsent⟩

/-- Witness for C10: a stored null reads back as null, exactly as an absent
key does. -/
theorem cache_null_indistinguishable_witness :
    (0 : Nat) < 300
    ∧ cacheGet true true (cacheSet true true [] 0 "k" JsValue.null 300).2 0 "k"
        = JsValue.null
    ∧ cacheGet true true (kvDel [] (cacheKey "k")) 0 "k" = JsValue.null := by
  have h := cache_null_indistinguishable_from_absent [] 0 "k" 300 (by decide)
  exact ⟨by decide, h.2.1, h.2.2⟩

end RestApiMcp

